import Mathlib

/-!
Verification development for the `snt.py` deployment supervisor.

The Python source is shallowly embedded as follows:
* Python `str` keys and commit identifiers are Lean `String`; the URL
  manipulation of `get_authenticated_url`, which works character-wise,
  is embedded over `List Char`.
* The JSON config file is modelled as an optional decoded `Config` value
  held in an `FS` record; `json.load`/`json.dump` become reading/writing
  that field.
* The external git client (GitPython) is an environment `GitEnv`: every
  primitive call the code performs (clone, fetch, ref lookup, the
  reset/clean/pull step) has its outcome recorded in the environment,
  with `Except GitError Unit` for operations whose failure raises
  `GitCommandError` in Python and `Option String` for the remote ref
  lookup (where `none` models the `IndexError`/`AttributeError` path).
  `try/except` blocks of the source become `match` on those outcomes.
* The sync loop of `main` is a fuel-bounded recursion producing the
  observable event trace (sync passes, spawn/terminate/wait on child
  process handles) and an exit status.  `KeyboardInterrupt` delivery is
  modelled at the loop's blocking sleep, the cooperative suspension
  point of the loop; `intr = some k` means the interrupt arrives during
  the sleep of the k-th poll cycle.
-/

namespace Snt

/-- A repository entry of the config store: the optional `url` and
`token` fields of the JSON object. -/
structure RepoEntry where
  url : Option String := none
  token : Option String := none
deriving Repr, DecidableEq

/-- The decoded config file: the mapping under the `repos` key, as an
association list from stringified repository ids to entries. -/
structure Config where
  repos : List (String × RepoEntry)
deriving Repr, DecidableEq

/-- The file system as seen by the config store: the decoded content of
`config.json`, or `none` when the file does not exist. -/
structure FS where
  configFile : Option Config
deriving Repr, DecidableEq

/-- Dictionary lookup on the association list modelling the Python dict. -/
def lookupRepo : List (String × RepoEntry) → String → Option RepoEntry
  | [], _ => none
  | (k, v) :: rest, key => if k = key then some v else lookupRepo rest key

/-- Dictionary update on the association list modelling the Python dict:
replaces the binding when the key is present, appends it otherwise. -/
def setRepo : List (String × RepoEntry) → String → RepoEntry → List (String × RepoEntry)
  | [], key, v => [(key, v)]
  | (k, w) :: rest, key, v =>
      if k = key then (key, v) :: rest else (k, w) :: setRepo rest key v

/-- Python truthiness of an optional string argument: `None` and the
empty string are falsy. -/
def truthy : Option String → Bool
  | none => false
  | some s => !(s == "")

/-- Embeds `load_config`: returns the persisted mapping when the file
exists, otherwise the fresh dictionary with an empty `repos` mapping. -/
def load_config (fs : FS) : Config :=
  match fs.configFile with
  | some c => c
  | none => ⟨[]⟩

/-- Embeds `save_config`: overwrites the config file with the mapping. -/
def save_config (fs : FS) (config : Config) : FS :=
  { fs with configFile := some config }

/-- Embeds `get_repo_config`: looks up the stringified id. -/
def get_repo_config (config : Config) (repo_id : Int) : Option RepoEntry :=
  lookupRepo config.repos (toString repo_id)

/-- Embeds `update_repo_config`: creates the entry when absent, sets
`url` and `token` when truthy, then saves the config.  Returns the
updated mapping together with the file system after the save. -/
def update_repo_config (fs : FS) (config : Config) (repo_id : Int)
    (url : Option String) (token : Option String) : Config × FS :=
  let repo_key := toString repo_id
  let base :=
    match lookupRepo config.repos repo_key with
    | some e => e
    | none => {}
  let e1 := if truthy url then { base with url := url } else base
  let e2 := if truthy token then { e1 with token := token } else e1
  let config' : Config := ⟨setRepo config.repos repo_key e2⟩
  (config', save_config fs config')

/-- The `url` field of the store's entry for an id, when that entry exists. -/
def urlOf (c : Config) (rid : Int) : Option String :=
  match get_repo_config c rid with
  | some e => e.url
  | none => none

/-- The `token` field of the store's entry for an id, when that entry exists. -/
def tokenOf (c : Config) (rid : Int) : Option String :=
  match get_repo_config c rid with
  | some e => e.token
  | none => none

/-- Embeds Python `s.replace(old, new, 1)`: replaces the first (leftmost)
occurrence of `old` in the subject string with `new`. -/
def pyReplaceFirst (old new : List Char) : List Char → List Char
  | [] => if old = [] then new else []
  | c :: rest =>
      if old.isPrefixOf (c :: rest) then new ++ List.drop old.length (c :: rest)
      else c :: pyReplaceFirst old new rest

/-- The characters of the literal scheme string of the https branch. -/
def httpsScheme : List Char := ['h', 't', 't', 'p', 's', ':', '/', '/']

/-- The characters of the literal scheme string of the http branch. -/
def httpScheme : List Char := ['h', 't', 't', 'p', ':', '/', '/']

/-- Python truthiness of the token argument, character-list version. -/
def truthyChars : Option (List Char) → Bool
  | none => false
  | some s => !s.isEmpty

/-- Embeds `get_authenticated_url`: when the token is truthy and the URL
starts with one of the two literal schemes, replace the first occurrence
of the scheme with the scheme followed by the token and an at sign;
otherwise return the URL unchanged. -/
def get_authenticated_url (url : List Char) (token : Option (List Char)) : List Char :=
  if truthyChars token then
    let t := (token.getD [])
    if httpsScheme.isPrefixOf url then
      pyReplaceFirst httpsScheme (httpsScheme ++ t ++ ['@']) url
    else if httpScheme.isPrefixOf url then
      pyReplaceFirst httpScheme (httpScheme ++ t ++ ['@']) url
    else url
  else url

/-- A raised `GitCommandError` of the git client, with its message. -/
inductive GitError where
  | cmd (msg : String)
deriving Repr, DecidableEq

/-- Outcomes of the git-client calls one run of `clone_or_update_repo`
performs, recorded as an environment.  `remoteRefCommit` is the commit
id of `origin.refs[branch]` for the active branch, with `none` modelling
the unresolvable-reference exception path; `pullResult` is the combined
outcome of the `reset --hard`, `clean -fd`, `pull` step. -/
structure GitEnv where
  gitDirExists : Bool
  cloneResult : Except GitError Unit
  fetchResult : Except GitError Unit
  activeBranch : String
  localCommit : String
  remoteRefCommit : Option String
  pullResult : Except GitError Unit

/-- Embeds `clone_or_update_repo`.  The result is `Except.ok changed`
when the Python function returns `changed`; an `Except.error` result
would model an exception escaping the function (the theorems show this
never happens: every raising call is wrapped in a handler that prints
and returns `False`).  When no git metadata exists the clone path runs
and a successful clone falls through to the final `return True`. -/
def clone_or_update_repo (env : GitEnv) : Except GitError Bool :=
  if env.gitDirExists = false then
    match env.cloneResult with
    | Except.error _ => Except.ok false
    | Except.ok _ => Except.ok true
  else
    match env.fetchResult with
    | Except.error _ => Except.ok false
    | Except.ok _ =>
      let local_commit := env.localCommit
      match env.remoteRefCommit with
      | none => Except.ok false
      | some remote_commit =>
        if local_commit ≠ remote_commit then
          match env.pullResult with
          | Except.ok _ => Except.ok true
          | Except.error _ => Except.ok false
        else Except.ok false

/-- The parsed CLI arguments of the `start` subcommand. -/
structure Args where
  repo : Int
  repoUrl : Option String
  token : Option String
  startFile : String
  checkTime : Nat
deriving Repr, DecidableEq

/-- Observable events of a run: a completed synchronization pass with
its reported change flag, and spawn/terminate/wait on child-process
handles, numbered consecutively from 0. -/
inductive Event where
  | syncEv (changed : Bool)
  | spawnEv (pid : Nat)
  | termEv (pid : Nat)
  | waitEv (pid : Nat)
deriving Repr, DecidableEq

/-- How a bounded run ends: still looping when the fuel runs out, a
`sys.exit` with the given status, or an uncaught exception. -/
inductive ExitStatus where
  | running
  | exited (code : Nat)
  | crashed
deriving Repr, DecidableEq

/-- Embeds the configuration-resolution prefix of `main` (lines before
the first sync): load the config, look the id up; when absent, either
register it from `--repo-url` or fail fatally (`none`, modelling
`sys.exit(1)`); when present, apply a `--token` update if one was
given.  On success it returns the `repo_config` value main proceeds
with, the in-memory mapping and the file system after any save. -/
def resolveConfig (fs : FS) (args : Args) : Option (Option RepoEntry × Config × FS) :=
  let config := load_config fs
  match get_repo_config config args.repo with
  | none =>
      if truthy args.repoUrl then
        let r := update_repo_config fs config args.repo args.repoUrl args.token
        some (get_repo_config r.1 args.repo, r.1, r.2)
      else none
  | some _ =>
      if truthy args.token then
        let r := update_repo_config fs config args.repo none args.token
        some (get_repo_config r.1 args.repo, r.1, r.2)
      else some (get_repo_config config args.repo, config, fs)

/-- Embeds the infinite `while True` loop of `main`, bounded by `fuel`
iterations.  Each iteration sleeps (where an interrupt scheduled for
this cycle fires: terminate and wait the current child, exit 0), then
runs a sync pass; on `True` it terminates and waits the old child and
starts the replacement (exiting 1 without a spawn when the entry file
is missing, as `run_start_file` does), on `False` it loops.  `syncEnvs`
gives the git environment of each upcoming cycle, `entryExists p`
whether the entry file exists when handle `p` would be spawned, `pid`
the currently live handle. -/
def runLoop (entryExists : Nat → Bool) (syncEnvs : Nat → GitEnv) (intr : Option Nat)
    (pid : Nat) : Nat → List Event × ExitStatus
  | 0 => ([], ExitStatus.running)
  | fuel' + 1 =>
    if intr = some 0 then
      ([Event.termEv pid, Event.waitEv pid], ExitStatus.exited 0)
    else
      match clone_or_update_repo (syncEnvs 0) with
      | Except.error _ => ([], ExitStatus.crashed)
      | Except.ok changed =>
        if changed then
          if entryExists (pid + 1) then
            let r := runLoop entryExists (fun i => syncEnvs (i + 1))
              (intr.map (fun j => j - 1)) (pid + 1) fuel'
            (Event.syncEv true :: Event.termEv pid :: Event.waitEv pid ::
              Event.spawnEv (pid + 1) :: r.1, r.2)
          else
            ([Event.syncEv true, Event.termEv pid, Event.waitEv pid], ExitStatus.exited 1)
        else
          let r := runLoop entryExists (fun i => syncEnvs (i + 1))
            (intr.map (fun j => j - 1)) pid fuel'
          (Event.syncEv false :: r.1, r.2)

/-- Embeds the body of `main` for the `start` subcommand: resolve the
configuration (exit 1 when the id is unknown and no URL was supplied),
run the initial sync pass with its result discarded, start the entry
file (exit 1 before any spawn when it does not exist), then enter the
poll loop. -/
def mainRun (fs : FS) (args : Args) (initialSync : GitEnv) (syncEnvs : Nat → GitEnv)
    (entryExists : Nat → Bool) (intr : Option Nat) (fuel : Nat) : List Event × ExitStatus :=
  match resolveConfig fs args with
  | none => ([], ExitStatus.exited 1)
  | some _ =>
    match clone_or_update_repo initialSync with
    | Except.error _ => ([], ExitStatus.crashed)
    | Except.ok changed =>
      if entryExists 0 then
        let r := runLoop entryExists syncEnvs intr 0 fuel
        (Event.syncEv changed :: Event.spawnEv 0 :: r.1, r.2)
      else
        ([Event.syncEv changed], ExitStatus.exited 1)

/-- Number of synchronization passes recorded in a trace. -/
def countSync : List Event → Nat
  | [] => 0
  | Event.syncEv _ :: rest => countSync rest + 1
  | _ :: rest => countSync rest

/-- Process-handle discipline of a trace, tracking the number of live
(spawned and not yet waited-on) handles: a spawn may only happen when no
handle is live, a terminate only when exactly one is, and a wait reaps
the live handle. -/
def procSafe : Nat → List Event → Prop
  | _, [] => True
  | live, Event.spawnEv _ :: rest => live = 0 ∧ procSafe (live + 1) rest
  | live, Event.termEv _ :: rest => live = 1 ∧ procSafe live rest
  | live, Event.waitEv _ :: rest => procSafe (live - 1) rest
  | live, Event.syncEv _ :: rest => procSafe live rest

end Snt

namespace Snt

theorem clone_or_update_repo_ok (env : GitEnv) :
    ∃ b, clone_or_update_repo env = Except.ok b := by
  rcases env with ⟨g, c, f, br, lc, rc, p⟩
  cases g <;> cases c <;> cases f <;> cases rc <;> cases p <;>
    simp only [clone_or_update_repo] <;>
    first
      | exact ⟨_, rfl⟩
      | (split <;> first | exact ⟨_, rfl⟩ | (split <;> exact ⟨_, rfl⟩))

/-- C1: for a working copy with git metadata whose fetch succeeds,
`clone_or_update_repo` returns `True` exactly when the local head
differs from the resolved remote tracking commit and the
reset/clean/pull step succeeds; equal heads or an unresolvable remote
reference yield `False`. -/
theorem claim_C1_update_change_detection (env : GitEnv)
    (hgit : env.gitDirExists = true) (hfetch : env.fetchResult = Except.ok ()) :
    (clone_or_update_repo env = Except.ok true ↔
      ∃ rc, env.remoteRefCommit = some rc ∧ env.localCommit ≠ rc ∧
        env.pullResult = Except.ok ())
    ∧ (∀ rc, env.remoteRefCommit = some rc → env.localCommit = rc →
        clone_or_update_repo env = Except.ok false)
    ∧ (env.remoteRefCommit = none → clone_or_update_repo env = Except.ok false) := by
  rcases env with ⟨g, c, f, br, lc, rc, p⟩
  simp only at hgit hfetch
  subst hgit
  subst hfetch
  refine ⟨?_, ?_, ?_⟩
  · cases rc with
    | none => simp [clone_or_update_repo]
    | some r =>
        by_cases hlc : lc = r
        · subst hlc
          simp [clone_or_update_repo]
        · cases p with
          | ok u => simp [clone_or_update_repo, hlc]
          | error e => simp [clone_or_update_repo, hlc]
  · intro r hr hlc
    subst hlc
    simp only at hr
    subst hr
    simp [clone_or_update_repo]
  · intro hr
    simp only at hr
    subst hr
    simp [clone_or_update_repo]

theorem claim_C1_witness :
    ((⟨true, Except.ok (), Except.ok (), "main", "aaa", some "bbb",
        Except.ok ()⟩ : GitEnv).gitDirExists = true)
    ∧ clone_or_update_repo
        ⟨true, Except.ok (), Except.ok (), "main", "aaa", some "bbb", Except.ok ()⟩ =
        Except.ok true := by
  refine ⟨rfl, ?_⟩
  exact (claim_C1_update_change_detection
    ⟨true, Except.ok (), Except.ok (), "main", "aaa", some "bbb", Except.ok ()⟩
    rfl rfl).1.mpr ⟨"bbb", rfl, by decide, rfl⟩

/-- C2: every failure of a synchronization pass (clone failure, fetch
failure, or failure of the reset/clean/pull step) makes
`clone_or_update_repo` return `False`, and no run of the function lets
an exception escape to the caller. -/
theorem claim_C2_failures_return_false_no_raise :
    (∀ env : GitEnv, ∃ b, clone_or_update_repo env = Except.ok b)
    ∧ (∀ (env : GitEnv) (e : GitError), env.gitDirExists = false →
        env.cloneResult = Except.error e → clone_or_update_repo env = Except.ok false)
    ∧ (∀ (env : GitEnv) (e : GitError), env.gitDirExists = true →
        env.fetchResult = Except.error e → clone_or_update_repo env = Except.ok false)
    ∧ (∀ (env : GitEnv) (e : GitError) (rc : String), env.gitDirExists = true →
        env.fetchResult = Except.ok () → env.remoteRefCommit = some rc →
        env.localCommit ≠ rc → env.pullResult = Except.error e →
        clone_or_update_repo env = Except.ok false) := by
  refine ⟨clone_or_update_repo_ok, ?_, ?_, ?_⟩
  · rintro ⟨g, c, f, br, lc, rc, p⟩ e hg hc
    simp only at hg hc
    subst hg
    subst hc
    simp [clone_or_update_repo]
  · rintro ⟨g, c, f, br, lc, rc, p⟩ e hg hf
    simp only at hg hf
    subst hg
    subst hf
    simp [clone_or_update_repo]
  · rintro ⟨g, c, f, br, lc, rc, p⟩ e r hg hf hr hlc hp
    simp only at hg hf hr hlc hp
    subst hg
    subst hf
    subst hr
    subst hp
    simp [clone_or_update_repo, hlc]

theorem claim_C2_witness :
    (∃ b, clone_or_update_repo
      ⟨false, Except.error (GitError.cmd "net"), Except.ok (), "main", "a", none,
        Except.ok ()⟩ = Except.ok b)
    ∧ clone_or_update_repo
        ⟨false, Except.error (GitError.cmd "net"), Except.ok (), "main", "a", none,
          Except.ok ()⟩ = Except.ok false
    ∧ clone_or_update_repo
        ⟨true, Except.ok (), Except.error (GitError.cmd "net"), "main", "a", none,
          Except.ok ()⟩ = Except.ok false
    ∧ clone_or_update_repo
        ⟨true, Except.ok (), Except.ok (), "main", "a", some "b",
          Except.error (GitError.cmd "pull")⟩ = Except.ok false := by
  refine ⟨claim_C2_failures_return_false_no_raise.1 _,
    claim_C2_failures_return_false_no_raise.2.1 _ (GitError.cmd "net") rfl rfl,
    claim_C2_failures_return_false_no_raise.2.2.1 _ (GitError.cmd "net") rfl rfl,
    claim_C2_failures_return_false_no_raise.2.2.2 _ (GitError.cmd "pull") "b" rfl rfl rfl
      (by decide) rfl⟩

end Snt

namespace Snt

theorem isPrefixOf_append_self (l rest : List Char) :
    l.isPrefixOf (l ++ rest) = true := by
  induction l with
  | nil => simp [List.isPrefixOf]
  | cons a as ih => simp [List.isPrefixOf, ih]

theorem drop_length_append (l rest : List Char) :
    List.drop l.length (l ++ rest) = rest := by
  induction l with
  | nil => simp
  | cons a as ih => simp [ih]

theorem pyReplaceFirst_head (old new rest : List Char) (h : old ≠ []) :
    pyReplaceFirst old new (old ++ rest) = new ++ rest := by
  cases old with
  | nil => exact absurd rfl h
  | cons a as =>
      show pyReplaceFirst (a :: as) new (a :: (as ++ rest)) = new ++ rest
      rw [pyReplaceFirst]
      rw [show a :: (as ++ rest) = (a :: as) ++ rest from rfl]
      rw [isPrefixOf_append_self, drop_length_append]
      simp

theorem https_not_pref_of_http (rest : List Char) :
    httpsScheme.isPrefixOf (httpScheme ++ rest) = false := rfl

/-- C3: with a non-empty token and an `https://` or `http://` URL,
`get_authenticated_url` returns the URL with the token and an at sign
inserted exactly once immediately after the scheme separator; with any
other scheme, or no token, the URL is returned unchanged. -/
theorem claim_C3_authenticated_url (url t rest : List Char) :
    (t ≠ [] → url = httpsScheme ++ rest →
      get_authenticated_url url (some t) = httpsScheme ++ t ++ '@' :: rest)
    ∧ (t ≠ [] → url = httpScheme ++ rest →
      get_authenticated_url url (some t) = httpScheme ++ t ++ '@' :: rest)
    ∧ (httpsScheme.isPrefixOf url = false → httpScheme.isPrefixOf url = false →
      get_authenticated_url url (some t) = url)
    ∧ get_authenticated_url url none = url
    ∧ get_authenticated_url url (some []) = url := by
  refine ⟨?_, ?_, ?_, rfl, rfl⟩
  · intro ht hu
    subst hu
    have htr : truthyChars (some t) = true := by
      cases t with
      | nil => exact absurd rfl ht
      | cons c cs => rfl
    simp only [get_authenticated_url, htr, if_true, Option.getD,
      isPrefixOf_append_self, if_pos]
    rw [pyReplaceFirst_head _ _ _ (by decide)]
    simp
  · intro ht hu
    subst hu
    have htr : truthyChars (some t) = true := by
      cases t with
      | nil => exact absurd rfl ht
      | cons c cs => rfl
    simp only [get_authenticated_url, htr, if_true, Option.getD,
      https_not_pref_of_http, if_false, Bool.false_eq_true,
      isPrefixOf_append_self, if_pos]
    rw [pyReplaceFirst_head _ _ _ (by decide)]
    simp
  · intro h1 h2
    simp only [get_authenticated_url, h1, h2, Bool.false_eq_true, if_false]
    split <;> rfl

theorem claim_C3_witness :
    get_authenticated_url ("https://gh/x".toList) (some ("tok".toList)) =
      httpsScheme ++ "tok".toList ++ '@' :: "gh/x".toList
    ∧ get_authenticated_url ("ssh://gh/x".toList) (some ("tok".toList)) =
      "ssh://gh/x".toList
    ∧ get_authenticated_url ("http://gh/x".toList) (some ("tok".toList)) =
      httpScheme ++ "tok".toList ++ '@' :: "gh/x".toList := by
  refine ⟨?_, ?_, ?_⟩
  · exact (claim_C3_authenticated_url ("https://gh/x".toList) ("tok".toList)
      ("gh/x".toList)).1 (by decide) (by decide)
  · exact (claim_C3_authenticated_url ("ssh://gh/x".toList) ("tok".toList)
      []).2.2.1 (by decide) (by decide)
  · exact (claim_C3_authenticated_url ("http://gh/x".toList) ("tok".toList)
      ("gh/x".toList)).2.1 (by decide) (by decide)

end Snt

namespace Snt

theorem lookupRepo_setRepo (l : List (String × RepoEntry)) (k : String) (v : RepoEntry) :
    lookupRepo (setRepo l k v) k = some v := by
  induction l with
  | nil => simp [setRepo, lookupRepo]
  | cons p rest ih =>
      obtain ⟨k1, w⟩ := p
      by_cases h : k1 = k
      · subst h
        simp [setRepo, lookupRepo]
      · simp [setRepo, lookupRepo, h, ih]

/-- C7: `update_repo_config` creates the entry when absent, sets the URL
when one is provided (truthy), sets the token when one is provided, and
persists the store; a token-only update leaves an existing URL
unchanged and a URL-only update leaves an existing token unchanged. -/
theorem claim_C7_upsert (fs : FS) (config : Config) (rid : Int)
    (url token : Option String) :
    (get_repo_config (update_repo_config fs config rid url token).1 rid).isSome = true
    ∧ (truthy url = true →
        urlOf (update_repo_config fs config rid url token).1 rid = url)
    ∧ (truthy token = true →
        tokenOf (update_repo_config fs config rid url token).1 rid = token)
    ∧ (truthy url = false →
        urlOf (update_repo_config fs config rid url token).1 rid = urlOf config rid)
    ∧ (truthy token = false →
        tokenOf (update_repo_config fs config rid url token).1 rid = tokenOf config rid)
    ∧ (update_repo_config fs config rid url token).2.configFile =
        some (update_repo_config fs config rid url token).1 := by
  cases hu : truthy url <;> cases htk : truthy token <;>
    cases hl : lookupRepo config.repos (toString rid) <;>
      simp [update_repo_config, get_repo_config, urlOf, tokenOf, save_config,
        lookupRepo_setRepo, hu, htk, hl]

theorem claim_C7_witness :
    tokenOf (update_repo_config ⟨none⟩ ⟨[("5", ⟨some "u", none⟩)]⟩ 5 none
      (some "t")).1 5 = some "t"
    ∧ urlOf (update_repo_config ⟨none⟩ ⟨[("5", ⟨some "u", none⟩)]⟩ 5 none
      (some "t")).1 5 = some "u"
    ∧ (update_repo_config ⟨none⟩ ⟨[("5", ⟨some "u", none⟩)]⟩ 5 none
        (some "t")).2.configFile =
      some (update_repo_config ⟨none⟩ ⟨[("5", ⟨some "u", none⟩)]⟩ 5 none
        (some "t")).1 := by
  refine ⟨(claim_C7_upsert ⟨none⟩ ⟨[("5", ⟨some "u", none⟩)]⟩ 5 none
      (some "t")).2.2.1 rfl, ?_,
    (claim_C7_upsert ⟨none⟩ ⟨[("5", ⟨some "u", none⟩)]⟩ 5 none (some "t")).2.2.2.2.2⟩
  have h := (claim_C7_upsert ⟨none⟩ ⟨[("5", ⟨some "u", none⟩)]⟩ 5 none
    (some "t")).2.2.2.1 rfl
  rw [h]
  decide

/-- C8: `load_config` returns a store with no repository entries when no
persisted file exists, and the persisted mapping when the file exists. -/
theorem claim_C8_load (fs : FS) (c : Config) :
    (fs.configFile = none →
      load_config fs = ⟨[]⟩ ∧ ∀ rid : Int, get_repo_config (load_config fs) rid = none)
    ∧ (fs.configFile = some c → load_config fs = c) := by
  constructor
  · intro h
    rcases fs with ⟨cf⟩
    simp only at h
    subst h
    exact ⟨rfl, fun rid => rfl⟩
  · intro h
    rcases fs with ⟨cf⟩
    simp only at h
    subst h
    rfl

theorem claim_C8_witness :
    load_config ⟨none⟩ = ⟨[]⟩
    ∧ load_config ⟨some ⟨[("1", ⟨some "u", some "t"⟩)]⟩⟩ =
        ⟨[("1", ⟨some "u", some "t"⟩)]⟩ :=
  ⟨((claim_C8_load ⟨none⟩ ⟨[]⟩).1 rfl).1,
    (claim_C8_load ⟨some ⟨[("1", ⟨some "u", some "t"⟩)]⟩⟩
      ⟨[("1", ⟨some "u", some "t"⟩)]⟩).2 rfl⟩

end Snt

namespace Snt

theorem runLoop_zero (e : Nat → Bool) (s : Nat → GitEnv) (i : Option Nat) (p : Nat) :
    runLoop e s i p 0 = ([], ExitStatus.running) := rfl

theorem runLoop_intr_now (e : Nat → Bool) (s : Nat → GitEnv) (p f : Nat) :
    runLoop e s (some 0) p (f + 1) =
      ([Event.termEv p, Event.waitEv p], ExitStatus.exited 0) := by
  rw [runLoop]
  rw [if_pos rfl]

theorem runLoop_step (e : Nat → Bool) (s : Nat → GitEnv) (i : Option Nat) (p f : Nat)
    (b : Bool) (hi : ¬i = some 0) (hb : clone_or_update_repo (s 0) = Except.ok b) :
    runLoop e s i p (f + 1) =
      if b then
        if e (p + 1) then
          (Event.syncEv true :: Event.termEv p :: Event.waitEv p ::
             Event.spawnEv (p + 1) ::
             (runLoop e (fun j => s (j + 1)) (i.map (fun j => j - 1)) (p + 1) f).1,
           (runLoop e (fun j => s (j + 1)) (i.map (fun j => j - 1)) (p + 1) f).2)
        else
          ([Event.syncEv true, Event.termEv p, Event.waitEv p], ExitStatus.exited 1)
      else
        (Event.syncEv false ::
           (runLoop e (fun j => s (j + 1)) (i.map (fun j => j - 1)) p f).1,
         (runLoop e (fun j => s (j + 1)) (i.map (fun j => j - 1)) p f).2) := by
  rw [runLoop]
  rw [if_neg hi, hb]

end Snt

namespace Snt

theorem mainRun_none (fs : FS) (args : Args) (initialSync : GitEnv)
    (syncEnvs : Nat → GitEnv) (entryExists : Nat → Bool) (intr : Option Nat) (fuel : Nat)
    (hx : resolveConfig fs args = none) :
    mainRun fs args initialSync syncEnvs entryExists intr fuel =
      ([], ExitStatus.exited 1) := by
  rw [mainRun, hx]

theorem mainRun_ok (fs : FS) (args : Args) (initialSync : GitEnv)
    (syncEnvs : Nat → GitEnv) (entryExists : Nat → Bool) (intr : Option Nat) (fuel : Nat)
    (x : Option RepoEntry × Config × FS) (b : Bool)
    (hx : resolveConfig fs args = some x)
    (hb : clone_or_update_repo initialSync = Except.ok b) :
    mainRun fs args initialSync syncEnvs entryExists intr fuel =
      if entryExists 0 then
        (Event.syncEv b :: Event.spawnEv 0 ::
           (runLoop entryExists syncEnvs intr 0 fuel).1,
         (runLoop entryExists syncEnvs intr 0 fuel).2)
      else
        ([Event.syncEv b], ExitStatus.exited 1) := by
  rw [mainRun, hx, hb]

theorem runLoop_procSafe (fuel : Nat) :
    ∀ (e : Nat → Bool) (s : Nat → GitEnv) (i : Option Nat) (p : Nat),
      procSafe 1 (runLoop e s i p fuel).1 := by
  induction fuel with
  | zero =>
      intro e s i p
      simp [runLoop_zero, procSafe]
  | succ f ih =>
      intro e s i p
      by_cases hi : i = some 0
      · subst hi
        simp [runLoop_intr_now, procSafe]
      · obtain ⟨b, hb⟩ := clone_or_update_repo_ok (s 0)
        rw [runLoop_step e s i p f b hi hb]
        cases b
        · simpa [procSafe] using ih e (fun j => s (j + 1)) (i.map (fun j => j - 1)) p
        · by_cases he : e (p + 1) = true
          · simpa [he, procSafe] using
              ih e (fun j => s (j + 1)) (i.map (fun j => j - 1)) (p + 1)
          · simp [he, procSafe]

/-- C4: in every run of the sync loop, a new supervised process handle
is only ever created after the previous one has been terminated and its
wait has returned: every spawn event happens with zero live handles and
every terminate event with exactly one, so no two handles are live at
any instant. -/
theorem claim_C4_stop_before_start (fs : FS) (args : Args) (initialSync : GitEnv)
    (syncEnvs : Nat → GitEnv) (entryExists : Nat → Bool) (intr : Option Nat)
    (fuel : Nat) :
    procSafe 0 (mainRun fs args initialSync syncEnvs entryExists intr fuel).1 := by
  cases hx : resolveConfig fs args with
  | none =>
      rw [mainRun_none fs args initialSync syncEnvs entryExists intr fuel hx]
      simp [procSafe]
  | some x =>
      obtain ⟨b, hb⟩ := clone_or_update_repo_ok initialSync
      rw [mainRun_ok fs args initialSync syncEnvs entryExists intr fuel x b hx hb]
      by_cases he : entryExists 0 = true
      · simpa [he, procSafe] using runLoop_procSafe fuel entryExists syncEnvs intr 0
      · simp [he, procSafe]

end Snt

namespace Snt

theorem runLoop_exit_one (fuel : Nat) :
    ∀ (e : Nat → Bool) (s : Nat → GitEnv) (i : Option Nat) (p : Nat),
      (runLoop e s i p fuel).2 = ExitStatus.exited 1 →
      ∃ q, e q = false := by
  induction fuel with
  | zero =>
      intro e s i p h
      simp [runLoop_zero] at h
  | succ f ih =>
      intro e s i p h
      by_cases hi : i = some 0
      · subst hi
        simp [runLoop_intr_now] at h
      · obtain ⟨b, hb⟩ := clone_or_update_repo_ok (s 0)
        rw [runLoop_step e s i p f b hi hb] at h
        cases b
        · simp only [Bool.false_eq_true, if_false] at h
          exact ih e (fun j => s (j + 1)) (i.map (fun j => j - 1)) p h
        · by_cases he : e (p + 1) = true
          · simp only [he, if_true] at h
            exact ih e (fun j => s (j + 1)) (i.map (fun j => j - 1)) (p + 1) h
          · exact ⟨p + 1, by simpa using he⟩

/-- C6: the utility exits with status 1 in exactly the two fatal
configuration cases: an unknown repository id with no URL supplied to
register it (before any event), and a missing entry file at start or
restart time (with no spawn performed); conversely an exit with status
1 only arises from one of those two situations. -/
theorem claim_C6_exit_codes (fs : FS) (args : Args) (initialSync : GitEnv)
    (syncEnvs : Nat → GitEnv) (entryExists : Nat → Bool) (intr : Option Nat)
    (fuel : Nat) :
    (resolveConfig fs args = none →
      mainRun fs args initialSync syncEnvs entryExists intr fuel =
        ([], ExitStatus.exited 1))
    ∧ ((resolveConfig fs args).isSome = true → entryExists 0 = false →
        (mainRun fs args initialSync syncEnvs entryExists intr fuel).2 =
          ExitStatus.exited 1
        ∧ ∀ q, Event.spawnEv q ∉
            (mainRun fs args initialSync syncEnvs entryExists intr fuel).1)
    ∧ ((mainRun fs args initialSync syncEnvs entryExists intr fuel).2 =
          ExitStatus.exited 1 →
        resolveConfig fs args = none ∨ ∃ q, entryExists q = false)
    ∧ (∀ (p f : Nat), ¬intr = some 0 →
        clone_or_update_repo (syncEnvs 0) = Except.ok true →
        entryExists (p + 1) = false →
        (runLoop entryExists syncEnvs intr p (f + 1)).2 = ExitStatus.exited 1
        ∧ ∀ q, Event.spawnEv q ∉ (runLoop entryExists syncEnvs intr p (f + 1)).1) := by
  refine ⟨?_, ?_, ?_, ?_⟩
  · intro hx
    exact mainRun_none fs args initialSync syncEnvs entryExists intr fuel hx
  · intro hres he
    obtain ⟨x, hx⟩ := Option.isSome_iff_exists.mp hres
    obtain ⟨b, hb⟩ := clone_or_update_repo_ok initialSync
    rw [mainRun_ok fs args initialSync syncEnvs entryExists intr fuel x b hx hb]
    have he' : ¬entryExists 0 = true := by simp [he]
    simp [he']
  · intro h
    cases hx : resolveConfig fs args with
    | none => exact Or.inl rfl
    | some x =>
        obtain ⟨b, hb⟩ := clone_or_update_repo_ok initialSync
        rw [mainRun_ok fs args initialSync syncEnvs entryExists intr fuel x b hx hb] at h
        by_cases he : entryExists 0 = true
        · simp only [he, if_true] at h
          exact Or.inr (runLoop_exit_one fuel entryExists syncEnvs intr 0 h)
        · exact Or.inr ⟨0, by simpa using he⟩
  · intro p f hi hb he
    rw [runLoop_step entryExists syncEnvs intr p f true hi hb]
    have he' : ¬entryExists (p + 1) = true := by simp [he]
    simp [he']

theorem claim_C6_witness :
    mainRun ⟨none⟩ ⟨7, none, none, "main.py", 5⟩
        ⟨false, Except.ok (), Except.ok (), "main", "a", none, Except.ok ()⟩
        (fun _ => ⟨true, Except.ok (), Except.ok (), "main", "a", some "a",
          Except.ok ()⟩)
        (fun _ => true) none 3 = ([], ExitStatus.exited 1)
    ∧ (mainRun ⟨none⟩ ⟨7, some "u", none, "main.py", 5⟩
        ⟨false, Except.ok (), Except.ok (), "main", "a", none, Except.ok ()⟩
        (fun _ => ⟨true, Except.ok (), Except.ok (), "main", "a", some "a",
          Except.ok ()⟩)
        (fun _ => false) none 3).2 = ExitStatus.exited 1 := by
  constructor
  · exact (claim_C6_exit_codes ⟨none⟩ ⟨7, none, none, "main.py", 5⟩
      ⟨false, Except.ok (), Except.ok (), "main", "a", none, Except.ok ()⟩
      (fun _ => ⟨true, Except.ok (), Except.ok (), "main", "a", some "a",
        Except.ok ()⟩)
      (fun _ => true) none 3).1 (by decide)
  · exact ((claim_C6_exit_codes ⟨none⟩ ⟨7, some "u", none, "main.py", 5⟩
      ⟨false, Except.ok (), Except.ok (), "main", "a", none, Except.ok ()⟩
      (fun _ => ⟨true, Except.ok (), Except.ok (), "main", "a", some "a",
        Except.ok ()⟩)
      (fun _ => false) none 3).2.1 (by decide) rfl).1

end Snt

namespace Snt

theorem runLoop_interrupt (k : Nat) :
    ∀ (e : Nat → Bool) (s : Nat → GitEnv) (p fuel : Nat),
      k < fuel → (∀ q, e q = true) →
      ∃ l q, p ≤ q
        ∧ (runLoop e s (some k) p fuel).1 = l ++ [Event.termEv q, Event.waitEv q]
        ∧ (runLoop e s (some k) p fuel).2 = ExitStatus.exited 0
        ∧ countSync (runLoop e s (some k) p fuel).1 = k
        ∧ Event.termEv q ∉ l := by
  induction k with
  | zero =>
      intro e s p fuel hf he
      obtain ⟨f, rfl⟩ : ∃ f, fuel = f + 1 := ⟨fuel - 1, by omega⟩
      refine ⟨[], p, le_refl p, ?_, ?_, ?_, by simp⟩ <;>
        simp [runLoop_intr_now, countSync]
  | succ k ih =>
      intro e s p fuel hf he
      obtain ⟨f, rfl⟩ : ∃ f, fuel = f + 1 := ⟨fuel - 1, by omega⟩
      have hk : k < f := by omega
      have hi : ¬(some (k + 1) : Option Nat) = some 0 := by simp
      obtain ⟨b, hb⟩ := clone_or_update_repo_ok (s 0)
      rw [runLoop_step e s (some (k + 1)) p f b hi hb]
      have hm : (some (k + 1) : Option Nat).map (fun j => j - 1) = some k := by simp
      rw [hm]
      cases b
      · obtain ⟨l, q, hq, h1, h2, h3, h4⟩ := ih e (fun j => s (j + 1)) p f hk he
        refine ⟨Event.syncEv false :: l, q, hq, ?_, ?_, ?_, ?_⟩
        · simp [h1]
        · simpa using h2
        · simp only [countSync, h3]
        · simp [h4]
      · obtain ⟨l, q, hq, h1, h2, h3, h4⟩ := ih e (fun j => s (j + 1)) (p + 1) f hk he
        have hq' : p < q := lt_of_lt_of_le (Nat.lt_succ_self p) hq
        refine ⟨Event.syncEv true :: Event.termEv p :: Event.waitEv p ::
          Event.spawnEv (p + 1) :: l, q, le_of_lt hq', ?_, ?_, ?_, ?_⟩
        · simp [he, h1]
        · simpa [he] using h2
        · simp only [he, if_true, countSync, h3]
        · simp only [List.mem_cons, h4, or_false]
          rintro (hc | hc | hc | hc)
          · exact Event.noConfusion hc
          · exact absurd (Event.termEv.inj hc) (by omega)
          · exact Event.noConfusion hc
          · exact Event.noConfusion hc

/-- C5: an interrupt arriving during the sleep of any poll cycle leads
to exactly one graceful termination of the currently supervised child
(a terminate followed by a wait that returns, with that child never
terminated earlier in the run), a clean exit with status 0, and no
further synchronization pass: the trace ends at the terminate/wait pair
and records exactly the initial pass plus one pass per completed poll
cycle before the interrupt. -/
theorem claim_C5_interrupt_clean_exit (fs : FS) (args : Args) (initialSync : GitEnv)
    (syncEnvs : Nat → GitEnv) (entryExists : Nat → Bool) (k fuel : Nat)
    (hres : (resolveConfig fs args).isSome = true)
    (hentry : ∀ q, entryExists q = true)
    (hk : k < fuel) :
    ∃ l q,
      (mainRun fs args initialSync syncEnvs entryExists (some k) fuel).1 =
        l ++ [Event.termEv q, Event.waitEv q]
      ∧ (mainRun fs args initialSync syncEnvs entryExists (some k) fuel).2 =
          ExitStatus.exited 0
      ∧ countSync (mainRun fs args initialSync syncEnvs entryExists (some k) fuel).1 =
          k + 1
      ∧ Event.termEv q ∉ l := by
  obtain ⟨x, hx⟩ := Option.isSome_iff_exists.mp hres
  obtain ⟨b, hb⟩ := clone_or_update_repo_ok initialSync
  rw [mainRun_ok fs args initialSync syncEnvs entryExists (some k) fuel x b hx hb]
  obtain ⟨l, q, hq, h1, h2, h3, h4⟩ := runLoop_interrupt k entryExists syncEnvs 0 fuel hk hentry
  refine ⟨Event.syncEv b :: Event.spawnEv 0 :: l, q, ?_, ?_, ?_, ?_⟩
  · simp [hentry 0, h1]
  · simpa [hentry 0] using h2
  · simp only [hentry 0, if_true, countSync, h3]
  · simp [h4]

theorem claim_C5_witness :
    ∃ l q,
      (mainRun ⟨none⟩ ⟨7, some "u", none, "main.py", 5⟩
          ⟨false, Except.ok (), Except.ok (), "main", "a", none, Except.ok ()⟩
          (fun _ => ⟨true, Except.ok (), Except.ok (), "main", "a", some "a",
            Except.ok ()⟩)
          (fun _ => true) (some 1) 3).1 = l ++ [Event.termEv q, Event.waitEv q]
      ∧ (mainRun ⟨none⟩ ⟨7, some "u", none, "main.py", 5⟩
          ⟨false, Except.ok (), Except.ok (), "main", "a", none, Except.ok ()⟩
          (fun _ => ⟨true, Except.ok (), Except.ok (), "main", "a", some "a",
            Except.ok ()⟩)
          (fun _ => true) (some 1) 3).2 = ExitStatus.exited 0
      ∧ countSync (mainRun ⟨none⟩ ⟨7, some "u", none, "main.py", 5⟩
          ⟨false, Except.ok (), Except.ok (), "main", "a", none, Except.ok ()⟩
          (fun _ => ⟨true, Except.ok (), Except.ok (), "main", "a", some "a",
            Except.ok ()⟩)
          (fun _ => true) (some 1) 3).1 = 1 + 1
      ∧ Event.termEv q ∉ l :=
  claim_C5_interrupt_clean_exit ⟨none⟩ ⟨7, some "u", none, "main.py", 5⟩
    ⟨false, Except.ok (), Except.ok (), "main", "a", none, Except.ok ()⟩
    (fun _ => ⟨true, Except.ok (), Except.ok (), "main", "a", some "a",
      Except.ok ()⟩)
    (fun _ => true) 1 3 (by decide) (fun _ => rfl) (by decide)

end Snt

namespace Snt

/-- C9: when no git metadata exists locally and the clone succeeds,
`clone_or_update_repo` returns `True`, and such a pass during a poll
cycle triggers a restart: the loop terminates and waits the old child
and spawns a replacement. -/
theorem claim_C9_fresh_clone_restart (env : GitEnv)
    (h1 : env.gitDirExists = false) (h2 : env.cloneResult = Except.ok ()) :
    clone_or_update_repo env = Except.ok true
    ∧ ∀ (e : Nat → Bool) (s : Nat → GitEnv) (i : Option Nat) (p f : Nat),
        s 0 = env → ¬i = some 0 → e (p + 1) = true →
        ∃ rest, (runLoop e s i p (f + 1)).1 =
          Event.syncEv true :: Event.termEv p :: Event.waitEv p ::
            Event.spawnEv (p + 1) :: rest := by
  have hclone : clone_or_update_repo env = Except.ok true := by
    rcases env with ⟨g, c, fr, br, lc, rc, pl⟩
    simp only at h1 h2
    subst h1
    subst h2
    simp [clone_or_update_repo]
  refine ⟨hclone, ?_⟩
  intro e s i p f hs hi he
  have hb : clone_or_update_repo (s 0) = Except.ok true := by rw [hs]; exact hclone
  rw [runLoop_step e s i p f true hi hb]
  simp [he]

theorem claim_C9_witness :
    clone_or_update_repo
      ⟨false, Except.ok (), Except.ok (), "main", "a", none, Except.ok ()⟩ =
      Except.ok true
    ∧ ∃ rest,
        (runLoop (fun _ => true)
          (fun _ => ⟨false, Except.ok (), Except.ok (), "main", "a", none,
            Except.ok ()⟩)
          none 0 3).1 =
        Event.syncEv true :: Event.termEv 0 :: Event.waitEv 0 ::
          Event.spawnEv 1 :: rest :=
  ⟨(claim_C9_fresh_clone_restart
      ⟨false, Except.ok (), Except.ok (), "main", "a", none, Except.ok ()⟩
      rfl rfl).1,
    (claim_C9_fresh_clone_restart
      ⟨false, Except.ok (), Except.ok (), "main", "a", none, Except.ok ()⟩
      rfl rfl).2 (fun _ => true)
      (fun _ => ⟨false, Except.ok (), Except.ok (), "main", "a", none,
        Except.ok ()⟩)
      none 0 2 rfl (by decide) rfl⟩

/-- C10: when the configuration resolves but the very first
synchronization pass fails to clone, so that no working copy and hence
no entry file exists, the run performs no further poll cycle: it
records the single failed pass, creates no supervised process, and
exits with status 1. -/
theorem claim_C10_first_clone_failure_fatal (fs : FS) (args : Args)
    (initialSync : GitEnv) (syncEnvs : Nat → GitEnv) (entryExists : Nat → Bool)
    (intr : Option Nat) (fuel : Nat)
    (hres : (resolveConfig fs args).isSome = true)
    (h1 : initialSync.gitDirExists = false)
    (h2 : ∃ err, initialSync.cloneResult = Except.error err)
    (hentry : entryExists 0 = false) :
    mainRun fs args initialSync syncEnvs entryExists intr fuel =
      ([Event.syncEv false], ExitStatus.exited 1) := by
  obtain ⟨x, hx⟩ := Option.isSome_iff_exists.mp hres
  have hb : clone_or_update_repo initialSync = Except.ok false := by
    obtain ⟨err, herr⟩ := h2
    rcases initialSync with ⟨g, c, fr, br, lc, rc, pl⟩
    simp only at h1 herr
    subst h1
    subst herr
    simp [clone_or_update_repo]
  rw [mainRun_ok fs args initialSync syncEnvs entryExists intr fuel x false hx hb]
  simp [hentry]

theorem claim_C10_witness :
    mainRun ⟨none⟩ ⟨7, some "u", none, "main.py", 5⟩
      ⟨false, Except.error (GitError.cmd "auth"), Except.ok (), "main", "a", none,
        Except.ok ()⟩
      (fun _ => ⟨true, Except.ok (), Except.ok (), "main", "a", some "a",
        Except.ok ()⟩)
      (fun _ => false) none 3 = ([Event.syncEv false], ExitStatus.exited 1) :=
  claim_C10_first_clone_failure_fatal ⟨none⟩ ⟨7, some "u", none, "main.py", 5⟩
    ⟨false, Except.error (GitError.cmd "auth"), Except.ok (), "main", "a", none,
      Except.ok ()⟩
    (fun _ => ⟨true, Except.ok (), Except.ok (), "main", "a", some "a",
      Except.ok ()⟩)
    (fun _ => false) none 3 (by decide) rfl ⟨GitError.cmd "auth", rfl⟩ rfl

end Snt
